import Mathlib

set_option maxHeartbeats 1000000

namespace Messenger

/-!
Shallow embedding of `messenger.go` from the Self-stabilizing Atomic Broadcast
repository (package `messenger`).

Payload bytes are modelled symbolically: a `Payload` is either the nil slice,
opaque raw bytes, or the gob encoding of one of the typed inner messages.  All
gob decodes in the source read into a freshly allocated struct, for which gob
round-tripping is the identity, so `decodeX (encX m) = some m` and decoding a
payload that does not hold an encoding of the expected type is a failure.
A `gob` decode error (and a Go runtime panic) aborts the process via
`logger.ErrLogger.Fatal`; fallible model functions return `Option` with `none`
for that abort.
-/

/-- `types.BcMessage` (used at messenger.go:235-253, 277-297, 602-649).
Modelled from the spec for the `types` package, which is outside the provided
sources: an instance `tag` (the instance key, an unsigned integer per the wire
format section) and an unsigned `value`. -/
structure BcMessage where
  tag : Nat
  value : Nat
  deriving DecidableEq

/-- `types.MvcMessage` (messenger.go:320-339, 692-714).  Modelled from the spec:
instance key `cid` and a byte-string `value`. -/
structure MvcMessage where
  cid : Nat
  value : List Nat
  deriving DecidableEq

/-- `types.VcMessage` (messenger.go:342-361, 717-739).  Modelled from the spec:
instance key `vcid` and a byte-string `value`. -/
structure VcMessage where
  vcid : Nat
  value : List Nat
  deriving DecidableEq

/-- `types.AbcMessage` (messenger.go:364-383, 742-753).  Modelled from the spec:
a sequence number `num` and a byte-string `value`. -/
structure AbcMessage where
  num : Nat
  value : List Nat
  deriving DecidableEq

/-- A sub-entry of `SSVCMessage.Content` (messenger.go:416-419).  Modelled from
the spec: the entry carries a byte-string `value`. -/
structure SSVCEntry where
  value : List Nat
  deriving DecidableEq

/-- A sub-entry of `SSABCMessage.Content` (messenger.go:445-449).  Modelled from
the spec: a byte-string `value` and an unsigned 32-bit `num`. -/
structure SSABCEntry where
  value : List Nat
  num : Nat
  deriving DecidableEq

/-- `types.SSVCMessage` (messenger.go:407-432, 756-778).  Modelled from the
spec: instance key `ssvcid` and a `content` map from stage labels to ordered
sub-entry sequences, represented as an association list. -/
structure SSVCMessage where
  ssvcid : Nat
  content : List (String × List SSVCEntry)
  deriving DecidableEq

/-- `types.SSABCMessage` (messenger.go:436-462, 810-821).  Modelled from the
spec: a `content` map from stage labels to ordered sub-entry sequences. -/
structure SSABCMessage where
  content : List (String × List SSABCEntry)
  deriving DecidableEq

/-- The anonymous `ssvcDecision` struct decoded at messenger.go:781-791: a
`vector` map from peer id to bytes (association list) and the key `ssvcid`. -/
structure SSVCDecision where
  vector : List (Nat × List Nat)
  ssvcid : Nat
  deriving DecidableEq

/-- A payload byte slice, modelled symbolically.  `nilP` is the nil slice that
an unassigned `var newPayload []byte` holds; `raw` is an opaque byte string;
the `enc*` constructors are the gob encodings of the typed inner messages.
`encMsg` inlines the fields of a nested `types.Message` envelope and `encRb`
the fields of a `types.RbMessage` (whose `value` holds encoded envelope
bytes), breaking the mutual recursion. -/
inductive Payload where
  | nilP : Payload
  | raw : List Nat → Payload
  | encBc : BcMessage → Payload
  | encMvc : MvcMessage → Payload
  | encVc : VcMessage → Payload
  | encAbc : AbcMessage → Payload
  | encSSVC : SSVCMessage → Payload
  | encSSABC : SSABCMessage → Payload
  | encSSVCDS : SSVCDecision → Payload
  | encMsg : Payload → String → Nat → List Nat → Payload
  | encRb : Nat → String → Payload → Payload
  deriving DecidableEq

/-- `types.Message`, the wire envelope (spec section 3): `payload` bytes, a
`type` tag, the sender id (`From` in the source; `from` is a Lean keyword) and
a `signature`.  Modelled from the spec for the `types` package. -/
structure Message where
  payload : Payload
  type : String
  sender : Nat
  signature : List Nat
  deriving DecidableEq

/-- `types.RbMessage` (messenger.go:300-314, 652-689).  Modelled from the spec:
instance key `rbid`, sub-protocol tag `rtype` (`Type` in the source), and
`value` holding the gob bytes of a nested envelope. -/
structure RbMessage where
  rbid : Nat
  rtype : String
  value : Payload
  deriving DecidableEq

/-- gob-encode an envelope (the source encodes `types.Message` values with
`gob.NewEncoder`, e.g. messenger.go:388-393). -/
def encodeMsg (m : Message) : Payload :=
  Payload.encMsg m.payload m.type m.sender m.signature

/-- gob-decode an envelope from payload bytes (messenger.go:308-314, 585-591). -/
def decodeMsg : Payload → Option Message
  | Payload.encMsg p t sd sg => some ⟨p, t, sd, sg⟩
  | _ => none

/-- gob-encode a `types.RbMessage` (messenger.go:396-402). -/
def encodeRb (m : RbMessage) : Payload :=
  Payload.encRb m.rbid m.rtype m.value

/-- gob-decode a `types.RbMessage` (messenger.go:300-306, 652-658). -/
def decodeRb : Payload → Option RbMessage
  | Payload.encRb rbid rtype v => some ⟨rbid, rtype, v⟩
  | _ => none

/-- gob-decode a `types.BcMessage` (messenger.go:235-241, 602-608). -/
def decodeBc : Payload → Option BcMessage
  | Payload.encBc m => some m
  | _ => none

/-- gob-decode a `types.MvcMessage` (messenger.go:320-326, 692-698). -/
def decodeMvc : Payload → Option MvcMessage
  | Payload.encMvc m => some m
  | _ => none

/-- gob-decode a `types.VcMessage` (messenger.go:342-348, 717-723). -/
def decodeVc : Payload → Option VcMessage
  | Payload.encVc m => some m
  | _ => none

/-- gob-decode a `types.AbcMessage` (messenger.go:364-370, 742-748). -/
def decodeAbc : Payload → Option AbcMessage
  | Payload.encAbc m => some m
  | _ => none

/-- gob-decode a `types.SSVCMessage` (messenger.go:407-413, 756-762). -/
def decodeSSVC : Payload → Option SSVCMessage
  | Payload.encSSVC m => some m
  | _ => none

/-- gob-decode a `types.SSABCMessage` (messenger.go:436-442, 810-816). -/
def decodeSSABC : Payload → Option SSABCMessage
  | Payload.encSSABC m => some m
  | _ => none

/-- gob-decode the `ssvcDecision` struct (messenger.go:781-791). -/
def decodeSSVCDS : Payload → Option SSVCDecision
  | Payload.encSSVCDS m => some m
  | _ => none

/-- The bytes of a Go string literal (`[]byte(valueToSend)`,
messenger.go:328, 350, 372, 418, 447): UTF-8 code units, which for the decimal
digit strings produced here are the character code points. -/
def strBytes (s : String) : List Nat :=
  s.data.map Char.toNat

/-- `val, _ := strconv.Atoi(valueToSend)` (messenger.go:285) with the error
ignored: parse a decimal digit string.  The only strings reaching it are `"0"`
and `"1"` (from `strconv.Itoa(receiver % 2)`), on which this digit fold agrees
with Go's `Atoi`. -/
def atoi (s : String) : Nat :=
  s.data.foldl (fun n c => n * 10 + (c.toNat - 48)) 0

/-- `types.NewMessage(payload, type)` (messenger.go:262, 386, 465).  Modelled
from the spec: it builds the envelope around the payload and type tag; the
spec fixes `from` as the local replica id and the signature as the product of
the out-of-scope signing primitive of the threshold-encryption module, which
no claim inspects and which is modelled as the empty byte string. -/
def NewMessage (ID : Nat) (payload : Payload) (ty : String) : Message :=
  { payload := payload, type := ty, sender := ID, signature := [] }

/-- The `switch msg.Tag % 3` of `modifyMessageBC` (messenger.go:243-250):
`0 → receiver % 2`, `1 → 0`, `2 → 1`. -/
def bcAttackValue (tag receiver : Nat) : Nat :=
  match tag % 3 with
  | 0 => receiver % 2
  | 1 => 0
  | _ => 1

/-- `modifyMessageBC` (messenger.go:234-263): decode the inner `BcMessage`
(fatal on error), pick the value from `Tag % 3`, re-encode. -/
def modifyMessageBC (ID : Nat) (message : Message) (receiver : Nat) :
    Option Message :=
  match decodeBc message.payload with
  | none => none
  | some msg0 =>
    some (NewMessage ID
      (Payload.encBc { msg0 with value := bcAttackValue msg0.tag receiver })
      message.type)

/-- The `valueToSend` string computed at messenger.go:271-274:
`"0"`, overwritten by `strconv.Itoa(receiver % 2)` when `halfScenario`. -/
def valueToSendStr (halfScenario : Bool) (receiver : Nat) : String :=
  if halfScenario then toString (receiver % 2) else "0"

/-- The `SSVC` content mutation loop (messenger.go:416-420): for each stage
label in `init, echo, ready`, overwrite every entry's `value`.  Indexing a Go
map mutates the slice held under each present key, so the association-list map
touches exactly the bindings whose key is one of the three labels. -/
def ssvcMutate (vb : List Nat) (content : List (String × List SSVCEntry)) :
    List (String × List SSVCEntry) :=
  content.map (fun kv =>
    if kv.1 = "init" ∨ kv.1 = "echo" ∨ kv.1 = "ready" then
      (kv.1, kv.2.map (fun e => { e with value := vb }))
    else kv)

/-- The `SSABC` content mutation loop (messenger.go:445-450): as `ssvcMutate`,
additionally setting every entry's `num` to `math.MaxUint32 / 2`. -/
def ssabcMutate (vb : List Nat) (content : List (String × List SSABCEntry)) :
    List (String × List SSABCEntry) :=
  content.map (fun kv =>
    if kv.1 = "init" ∨ kv.1 = "echo" ∨ kv.1 = "ready" then
      (kv.1, kv.2.map (fun e => { e with value := vb, num := 4294967295 / 2 }))
    else kv)

/-- `modifyMessage` (messenger.go:268-466).  `var newPayload []byte` starts as
the nil slice; a type with no matching branch reaches the final
`types.NewMessage(newPayload, message.Type)` with `newPayload` still nil.
`val, _ := strconv.Atoi(valueToSend)` ignores the error and is modelled by
`atoi`. -/
def modifyMessage (ID : Nat) (message : Message) (receiver : Nat)
    (halfScenario : Bool) : Option Message :=
  let valueToSend := valueToSendStr halfScenario receiver
  if message.type = "BVB" ∨ message.type = "BC" then
    match decodeBc message.payload with
    | none => none
    | some msg0 =>
      let val := atoi valueToSend
      some (NewMessage ID (Payload.encBc { msg0 with value := val }) message.type)
  else if message.type = "RB" ∨ message.type = "RB_ABC" then
    match decodeRb message.payload with
    | none => none
    | some msg1 =>
      match decodeMsg msg1.value with
      | none => none
      | some msg =>
        let tempPayload : Option Payload :=
          if msg.type = "MVC" then
            match decodeMvc msg.payload with
            | none => none
            | some m => some (Payload.encMvc { m with value := strBytes valueToSend })
          else if msg.type = "VC" then
            match decodeVc msg.payload with
            | none => none
            | some m => some (Payload.encVc { m with value := strBytes valueToSend })
          else if msg.type = "ABC" then
            match decodeAbc msg.payload with
            | none => none
            | some m => some (Payload.encAbc { m with value := strBytes valueToSend })
          else some Payload.nilP
        match tempPayload with
        | none => none
        | some tp =>
          let temp := NewMessage ID tp msg.type
          some (NewMessage ID (encodeRb { msg1 with value := encodeMsg temp })
            message.type)
  else if message.type = "SSVC" then
    match decodeSSVC message.payload with
    | none => none
    | some msg0 =>
      some (NewMessage ID
        (Payload.encSSVC { msg0 with content := ssvcMutate (strBytes valueToSend) msg0.content })
        message.type)
  else if message.type = "SSABC" then
    match decodeSSABC message.payload with
    | none => none
    | some msg0 =>
      some (NewMessage ID
        (Payload.encSSABC { msg0 with content := ssabcMutate (strBytes valueToSend) msg0.content })
        message.type)
  else
    some (NewMessage ID Payload.nilP message.type)

/-- One pass of the recipient loop of `Broadcast` (messenger.go:475-496),
recursing over the list of candidate recipient indices.  `i == ID` is skipped;
otherwise, unless the type is `SSVCDS`, the message variable is reassigned to
the Byzantine-injector output before being offered to `MessageChannel[i]`, and
the reassigned message is carried into later iterations.  The channel offer is
modelled as the enqueue of `(i, message)`; `none` is the fatal abort raised
inside an injector call. -/
def broadcastLoop (scenario : String) (byzantine : Bool) (halfScenario : Bool)
    (ID : Nat) : List Nat → Message → Option (List (Nat × Message))
  | [], _ => some []
  | i :: rest, message =>
    if i = ID then broadcastLoop scenario byzantine halfScenario ID rest message
    else
      let step : Option Message :=
        if message.type = "SSVCDS" then some message
        else if scenario = "BC_ATTACK" ∧ byzantine ∧
            (message.type = "BVB" ∨ message.type = "BC") then
          modifyMessageBC ID message i
        else if (scenario = "HALF_&_HALF" ∨ scenario = "BZ_ALL") ∧ byzantine then
          modifyMessage ID message i halfScenario
        else some message
      match step with
      | none => none
      | some m =>
        match broadcastLoop scenario byzantine halfScenario ID rest m with
        | none => none
        | some sends => some ((i, m) :: sends)

/-- `Broadcast` (messenger.go:469-497): on `IDLE` with the Byzantine flag the
function returns at once with no enqueue; otherwise it runs the recipient loop
over `0 .. N-1`. -/
def Broadcast (N ID : Nat) (scenario : String) (byzantine : Bool)
    (message : Message) : Option (List (Nat × Message)) :=
  if scenario = "IDLE" ∧ byzantine then some []
  else broadcastLoop scenario byzantine (scenario = "HALF_&_HALF") ID
    (List.range N) message

/-- The keys touched by the per-peer loops of `InitializeMessenger`
(messenger.go:121-218): sockets and `MessageChannel` entries are created for
every `i` in `0 .. N-1` with `i == ID` skipped by `continue`, and the client
sockets for every index in `0 .. Clients-1`. -/
structure InitState where
  receiveSockets : List Nat
  sendSockets : List Nat
  messageChannel : List Nat
  serverSockets : List Nat
  responseSockets : List Nat
  deriving DecidableEq

/-- `InitializeMessenger` (messenger.go:121-218), restricted to the map keys it
creates. -/
def InitializeMessenger (N ID clients : Nat) : InitState :=
  let peers := (List.range N).filter (fun i => ¬ i = ID)
  { receiveSockets := peers
    sendSockets := peers
    messageChannel := peers
    serverSockets := List.range clients
    responseSockets := List.range clients }

/-- `TransmitMessages` (messenger.go:500-531): the peer ids for which a sender
goroutine is spawned (`i == ID` skipped by `continue`). -/
def TransmitMessages (N ID : Nat) : List Nat :=
  (List.range N).filter (fun i => ¬ i = ID)

/-- `Subscribe`, server half (messenger.go:536-555): the peer ids for which a
receiver goroutine is spawned (`i == ID` skipped by `continue`). -/
def SubscribeReceivers (N ID : Nat) : List Nat :=
  (List.range N).filter (fun i => ¬ i = ID)

/-- `Subscribe`, client half (messenger.go:558-574): the client indices for
which a request-handling goroutine is spawned. -/
def SubscribeClients (clients : Nat) : List Nat :=
  List.range clients

/-- The metrics update performed by a sender goroutine per completed wire send
(messenger.go:524-527): `MsgComplexity++` and `MsgSize += len(bytes)` under
one lock, folded over a list of enqueued messages; `size` abstracts the gob
wire length of an envelope. -/
def transmitMetrics (size : Message → Nat) (sends : List (Nat × Message))
    (st : Nat × Nat) : Nat × Nat :=
  sends.foldl (fun acc p => (acc.1 + 1, acc.2 + size p.2)) st

/-- Association-list lookup standing for a Go map read (`tbl[key]`), returning
the channel stored under `key`. -/
def lookupChan {α : Type} [DecidableEq α] : List (α × Nat) → α → Option Nat
  | [], _ => none
  | (k, c) :: rest, key => if key = k then some c else lookupChan rest key

/-- The lazy-creation step performed under a table's write lock
(e.g. messenger.go:611-619): if `key` is absent, bind it to a fresh channel
identifier; return the updated table, the channel read back out, and the next
fresh identifier. -/
def getOrCreate {α : Type} [DecidableEq α] (tbl : List (α × Nat)) (key : α)
    (next : Nat) : List (α × Nat) × Nat × Nat :=
  match lookupChan tbl key with
  | some c => (tbl, c, next)
  | none => ((key, next) :: tbl, next, next + 1)

/-- The routing tables owned by the dispatcher (messenger.go:38-105), with
channels named by identifiers allocated from `nextChan`.  `RbChannel` is a
two-level Go map `map[string]map[int]chan`; its two levels are flattened into
a compound `(rtype, rbid)` key, with the nil-inner-map behaviour guarded
explicitly in `HandleMessage`. -/
structure DispatchState where
  bvbChannel : List (Nat × Nat)
  bcChannel : List (Nat × Nat)
  rbChannel : List ((String × Nat) × Nat)
  mvcChannel : List (Nat × Nat)
  vcChannel : List (Nat × Nat)
  ssvcChannel : List (Nat × Nat)
  ssvcDecisionsChannel : List (Nat × Nat)
  nextChan : Nat
  deriving DecidableEq

/-- A send performed by `HandleMessage` on an instance queue or a global
channel: keyed sends carry the identifier of the channel they were delivered
on. -/
inductive Routed where
  | bvb : Nat → BcMessage → Nat → Routed
  | bc : Nat → BcMessage → Nat → Routed
  | rb : Nat → RbMessage → Nat → Routed
  | rbAbc : RbMessage → Nat → Routed
  | mvc : Nat → MvcMessage → Nat → Routed
  | vc : Nat → VcMessage → Nat → Routed
  | abc : AbcMessage → Nat → Routed
  | ssvc : Nat → SSVCMessage → Nat → Routed
  | ssvcds : Nat → SSVCDecision → Nat → Routed
  | ssabc : SSABCMessage → Nat → Routed
  deriving DecidableEq

/-- `HandleMessage` (messenger.go:584-824): decode the envelope (fatal on
error), drop unverified frames without routing, then switch on the type tag,
decoding the inner message (fatal on error), lazily creating the instance
queue under the table lock and sending on it.  The `RB` case writes into the
inner map `RbChannel[rbType]`, which `initRBChannels` created only for `MVC`
and `VC`; for any other `rbType` the inner map is nil and the Go assignment
panics, modelled as `none`.  The switch has no default branch: an unknown tag
falls through and the function returns having routed nothing. -/
def HandleMessage (verify : Payload → List Nat → Nat → Bool)
    (s : DispatchState) (frame : Payload) :
    Option (DispatchState × List Routed) :=
  match decodeMsg frame with
  | none => none
  | some message =>
    if ¬ verify message.payload message.signature message.sender then
      some (s, [])
    else if message.type = "BVB" then
      match decodeBc message.payload with
      | none => none
      | some bm =>
        let r := getOrCreate s.bvbChannel bm.tag s.nextChan
        some ({ s with bvbChannel := r.1, nextChan := r.2.2 },
          [Routed.bvb r.2.1 bm message.sender])
    else if message.type = "BC" then
      match decodeBc message.payload with
      | none => none
      | some bm =>
        let r := getOrCreate s.bcChannel bm.tag s.nextChan
        some ({ s with bcChannel := r.1, nextChan := r.2.2 },
          [Routed.bc r.2.1 bm message.sender])
    else if message.type = "RB" then
      match decodeRb message.payload with
      | none => none
      | some rm =>
        if rm.rtype = "MVC" ∨ rm.rtype = "VC" then
          let r := getOrCreate s.rbChannel (rm.rtype, rm.rbid) s.nextChan
          some ({ s with rbChannel := r.1, nextChan := r.2.2 },
            [Routed.rb r.2.1 rm message.sender])
        else none
    else if message.type = "RB_ABC" then
      match decodeRb message.payload with
      | none => none
      | some rm => some (s, [Routed.rbAbc rm message.sender])
    else if message.type = "MVC" then
      match decodeMvc message.payload with
      | none => none
      | some mm =>
        let r := getOrCreate s.mvcChannel mm.cid s.nextChan
        some ({ s with mvcChannel := r.1, nextChan := r.2.2 },
          [Routed.mvc r.2.1 mm message.sender])
    else if message.type = "VC" then
      match decodeVc message.payload with
      | none => none
      | some vm =>
        let r := getOrCreate s.vcChannel vm.vcid s.nextChan
        some ({ s with vcChannel := r.1, nextChan := r.2.2 },
          [Routed.vc r.2.1 vm message.sender])
    else if message.type = "ABC" then
      match decodeAbc message.payload with
      | none => none
      | some am => some (s, [Routed.abc am message.sender])
    else if message.type = "SSVC" then
      match decodeSSVC message.payload with
      | none => none
      | some sm =>
        let r := getOrCreate s.ssvcChannel sm.ssvcid s.nextChan
        some ({ s with ssvcChannel := r.1, nextChan := r.2.2 },
          [Routed.ssvc r.2.1 sm message.sender])
    else if message.type = "SSVCDS" then
      match decodeSSVCDS message.payload with
      | none => none
      | some dm =>
        let r := getOrCreate s.ssvcDecisionsChannel dm.ssvcid s.nextChan
        some ({ s with ssvcDecisionsChannel := r.1, nextChan := r.2.2 },
          [Routed.ssvcds r.2.1 dm message.sender])
    else if message.type = "SSABC" then
      match decodeSSABC message.payload with
      | none => none
      | some sm => some (s, [Routed.ssabc sm message.sender])
    else
      some (s, [])

/-- A run of the dispatcher over a sequence of inbound frames, handling them
one after another (each frame's handler runs in its own goroutine; the
per-type mutexes serialize the table accesses, and this model fixes one
serialization order). -/
def HandleAll (verify : Payload → List Nat → Nat → Bool)
    (s : DispatchState) : List Payload → Option (DispatchState × List Routed)
  | [] => some (s, [])
  | f :: fs =>
    match HandleMessage verify s f with
    | none => none
    | some (s1, r1) =>
      match HandleAll verify s1 fs with
      | none => none
      | some (s2, r2) => some (s2, r1 ++ r2)

/-- Modelled from the spec (section 4.5 and property P6/P8): the Byzantine
injector as the specification words it for the `HALF_&_HALF` / `BZ_ALL` path.
`value_to_send` is `recipient mod 2` under `HALF_&_HALF` and `0` under
`BZ_ALL`; as decimal digit bytes that is `[48 + recipient mod 2]` resp.
`[48]`.  Every type's `value` field(s) are overwritten with `value_to_send`
while the rest of the message is preserved through the re-encoding — in
particular top-level `MVC`, `VC` and `ABC` messages keep their `cid` / `vcid`
/ `num` and merely have their `value` replaced.  For `RB`/`RB_ABC` the listed
inner types `MVC`/`VC`/`ABC` are mutated; an inner type outside the table is
not specified and is left unchanged.  `SSABC` entries additionally get
`num = UINT32_MAX / 2 = 2147483647`.  Decode failures are fatal (spec
section 7), modelled as `none`. -/
def claimedInjector (ID : Nat) (message : Message) (receiver : Nat)
    (halfScenario : Bool) : Option Message :=
  let valueInt : Nat := if halfScenario then receiver % 2 else 0
  let valueBytes : List Nat := if halfScenario then [48 + receiver % 2] else [48]
  if message.type = "BVB" ∨ message.type = "BC" then
    match decodeBc message.payload with
    | none => none
    | some b =>
      some (NewMessage ID (Payload.encBc { b with value := valueInt }) message.type)
  else if message.type = "RB" ∨ message.type = "RB_ABC" then
    match decodeRb message.payload with
    | none => none
    | some rm =>
      match decodeMsg rm.value with
      | none => none
      | some inner =>
        let innerPayload : Option Payload :=
          if inner.type = "MVC" then
            match decodeMvc inner.payload with
            | none => none
            | some m => some (Payload.encMvc { m with value := valueBytes })
          else if inner.type = "VC" then
            match decodeVc inner.payload with
            | none => none
            | some m => some (Payload.encVc { m with value := valueBytes })
          else if inner.type = "ABC" then
            match decodeAbc inner.payload with
            | none => none
            | some m => some (Payload.encAbc { m with value := valueBytes })
          else some inner.payload
        match innerPayload with
        | none => none
        | some p =>
          some (NewMessage ID
            (encodeRb { rm with value := encodeMsg (NewMessage ID p inner.type) })
            message.type)
  else if message.type = "MVC" then
    match decodeMvc message.payload with
    | none => none
    | some m =>
      some (NewMessage ID (Payload.encMvc { m with value := valueBytes }) message.type)
  else if message.type = "VC" then
    match decodeVc message.payload with
    | none => none
    | some m =>
      some (NewMessage ID (Payload.encVc { m with value := valueBytes }) message.type)
  else if message.type = "ABC" then
    match decodeAbc message.payload with
    | none => none
    | some m =>
      some (NewMessage ID (Payload.encAbc { m with value := valueBytes }) message.type)
  else if message.type = "SSVC" then
    match decodeSSVC message.payload with
    | none => none
    | some m =>
      some (NewMessage ID
        (Payload.encSSVC { m with content := m.content.map (fun kv =>
          if kv.1 = "init" ∨ kv.1 = "echo" ∨ kv.1 = "ready" then
            (kv.1, kv.2.map (fun e => { e with value := valueBytes }))
          else kv) })
        message.type)
  else if message.type = "SSABC" then
    match decodeSSABC message.payload with
    | none => none
    | some m =>
      some (NewMessage ID
        (Payload.encSSABC { m with content := m.content.map (fun kv =>
          if kv.1 = "init" ∨ kv.1 = "echo" ∨ kv.1 = "ready" then
            (kv.1, kv.2.map (fun e => { e with value := valueBytes, num := 2147483647 }))
          else kv) })
        message.type)
  else
    some message

/-- For an `RB`/`RB_ABC` message, the nested envelope's type is one of the
three inner types the mutation table lists; vacuously true for every other
type and whenever a decode fails. -/
def rbInnerOK (m : Message) : Bool :=
  if m.type = "RB" ∨ m.type = "RB_ABC" then
    match decodeRb m.payload with
    | none => true
    | some rm =>
      match decodeMsg rm.value with
      | none => true
      | some inner =>
        inner.type = "MVC" ∨ inner.type = "VC" ∨ inner.type = "ABC"
  else true

/-! ### Helper lemmas -/

theorem valueToSendStr_atoi (half : Bool) (i : Nat) :
    atoi (valueToSendStr half i) = if half then i % 2 else 0 := by
  cases half with
  | false => simp only [valueToSendStr, if_neg Bool.false_ne_true]; rfl
  | true =>
    simp only [valueToSendStr, if_pos rfl]
    rcases Nat.mod_two_eq_zero_or_one i with h | h <;> rw [h] <;> rfl

theorem valueToSendStr_bytes (half : Bool) (i : Nat) :
    strBytes (valueToSendStr half i) = if half then [48 + i % 2] else [48] := by
  cases half with
  | false => simp only [valueToSendStr, if_neg Bool.false_ne_true]; rfl
  | true =>
    simp only [valueToSendStr, if_pos rfl]
    rcases Nat.mod_two_eq_zero_or_one i with h | h <;> rw [h] <;> rfl

theorem broadcastLoop_ssvcds (sc : String) (byz hs : Bool) (ID : Nat)
    (l : List Nat) : ∀ (m : Message), m.type = "SSVCDS" →
      broadcastLoop sc byz hs ID l m =
        some ((l.filter (fun i => ¬ i = ID)).map (fun i => (i, m))) := by
  induction l with
  | nil => intro m _; rfl
  | cons i rest ih =>
    intro m hty
    simp only [broadcastLoop]
    by_cases hid : i = ID
    · subst hid
      rw [if_pos rfl, ih m hty]
      simp
    · rw [if_neg hid]
      simp [hty, ih m hty, hid]

theorem broadcastLoop_not_self (sc : String) (byz hs : Bool) (ID : Nat)
    (l : List Nat) : ∀ (m : Message) (sends : List (Nat × Message)),
      broadcastLoop sc byz hs ID l m = some sends →
      ∀ p ∈ sends, ¬ p.1 = ID := by
  induction l with
  | nil =>
    intro m sends h p hp
    simp only [broadcastLoop, Option.some.injEq] at h
    subst h
    cases hp
  | cons i rest ih =>
    intro m sends h p hp
    simp only [broadcastLoop] at h
    split at h
    · exact ih m sends h p hp
    · rename_i hid
      split at h
      · cases h
      · rename_i m2 hstep
        split at h
        · cases h
        · rename_i sends2 hrest
          simp only [Option.some.injEq] at h
          subst h
          rcases List.mem_cons.mp hp with rfl | hp2
          · exact hid
          · exact ih m2 sends2 hrest p hp2

/-! ### C3: SSVCDS exemption -/

/-- C3: messages of type `SSVCDS` never pass through the Byzantine injector:
`Broadcast` enqueues, for every recipient, a payload byte-identical to the
input message's payload, regardless of the scenario and byzantine settings
(the `IDLE`+byzantine combination enqueues nothing at all, covered by the
`if`). -/
theorem C3_ssvcds_exempt (N ID : Nat) (sc : String) (byz : Bool) (m : Message)
    (hty : m.type = "SSVCDS") :
    Broadcast N ID sc byz m =
      some (if sc = "IDLE" ∧ byz then []
        else ((List.range N).filter (fun i => ¬ i = ID)).map (fun i => (i, m))) ∧
    ∀ sends, Broadcast N ID sc byz m = some sends →
      ∀ p ∈ sends, p.2.payload = m.payload := by
  have hmain : Broadcast N ID sc byz m =
      some (if sc = "IDLE" ∧ byz then []
        else ((List.range N).filter (fun i => ¬ i = ID)).map (fun i => (i, m))) := by
    unfold Broadcast
    by_cases hI : sc = "IDLE" ∧ byz
    · rw [if_pos hI, if_pos hI]
    · rw [if_neg hI, if_neg hI]
      exact broadcastLoop_ssvcds sc byz (sc = "HALF_&_HALF") ID (List.range N) m hty
  refine ⟨hmain, ?_⟩
  intro sends hs p hp
  rw [hmain] at hs
  simp only [Option.some.injEq] at hs
  subst hs
  split at hp
  · cases hp
  · simp only [List.mem_map] at hp
    obtain ⟨i, _, rfl⟩ := hp
    rfl

/-- Witness for C3 at a concrete decision message, scenario `HALF_&_HALF`,
byzantine. -/
theorem C3_witness :
    Broadcast 4 0 "HALF_&_HALF" true
        ⟨Payload.encSSVCDS ⟨[(1, [7])], 5⟩, "SSVCDS", 0, []⟩ =
      some [(1, ⟨Payload.encSSVCDS ⟨[(1, [7])], 5⟩, "SSVCDS", 0, []⟩),
        (2, ⟨Payload.encSSVCDS ⟨[(1, [7])], 5⟩, "SSVCDS", 0, []⟩),
        (3, ⟨Payload.encSSVCDS ⟨[(1, [7])], 5⟩, "SSVCDS", 0, []⟩)] :=
  ((C3_ssvcds_exempt 4 0 "HALF_&_HALF" true
    ⟨Payload.encSSVCDS ⟨[(1, [7])], 5⟩, "SSVCDS", 0, []⟩ rfl).1).trans (by decide)

/-! ### C4: IDLE drop -/

/-- C4: with `scenario == "IDLE"` and the byzantine flag set, `Broadcast`
returns immediately, enqueues nothing on any per-peer channel, and the
metrics fold over the (empty) list of completed sends leaves the counters
unchanged, for every wire-size function. -/
theorem C4_idle_drop (N ID : Nat) (m : Message) (size : Message → Nat)
    (mc ms : Nat) :
    Broadcast N ID "IDLE" true m = some [] ∧
    transmitMetrics size ((Broadcast N ID "IDLE" true m).getD [(0, m)]) (mc, ms) =
      (mc, ms) := by
  have hb : Broadcast N ID "IDLE" true m = some [] := by
    unfold Broadcast
    rw [if_pos ⟨rfl, rfl⟩]
  exact ⟨hb, by rw [hb]; rfl⟩

/-! ### C9: self-exclusion -/

/-- C9: the local id `ID` is excluded everywhere: no `Broadcast` enqueue
targets peer `ID`, `InitializeMessenger` creates no `MessageChannel` entry or
socket for `ID`, and neither `TransmitMessages` nor `Subscribe` spawns a task
for peer `ID`. -/
theorem C9_self_exclusion (N ID clients : Nat) (sc : String) (byz : Bool)
    (m : Message) (sends : List (Nat × Message))
    (hb : Broadcast N ID sc byz m = some sends) :
    (∀ p ∈ sends, ¬ p.1 = ID) ∧
    ¬ ID ∈ (InitializeMessenger N ID clients).messageChannel ∧
    ¬ ID ∈ (InitializeMessenger N ID clients).sendSockets ∧
    ¬ ID ∈ (InitializeMessenger N ID clients).receiveSockets ∧
    ¬ ID ∈ TransmitMessages N ID ∧
    ¬ ID ∈ SubscribeReceivers N ID := by
  have hfil : ¬ ID ∈ (List.range N).filter (fun i => ¬ i = ID) := by
    simp [List.mem_filter]
  refine ⟨?_, hfil, hfil, hfil, hfil, hfil⟩
  intro p hp
  unfold Broadcast at hb
  split at hb
  · simp only [Option.some.injEq] at hb
    subst hb
    cases hp
  · exact broadcastLoop_not_self sc byz (sc = "HALF_&_HALF") ID (List.range N)
      m sends hb p hp

/-- Witness for C9 at `N = 4`, `ID = 0`, an honest `NORMAL` broadcast. -/
theorem C9_witness :
    Broadcast 4 0 "NORMAL" false ⟨Payload.raw [1], "BVB", 0, []⟩ =
      some [(1, ⟨Payload.raw [1], "BVB", 0, []⟩),
        (2, ⟨Payload.raw [1], "BVB", 0, []⟩),
        (3, ⟨Payload.raw [1], "BVB", 0, []⟩)] ∧
    ((1, (⟨Payload.raw [1], "BVB", 0, []⟩ : Message)) ∈
      [(1, (⟨Payload.raw [1], "BVB", 0, []⟩ : Message)),
        (2, ⟨Payload.raw [1], "BVB", 0, []⟩),
        (3, ⟨Payload.raw [1], "BVB", 0, []⟩)]) ∧
    ¬ (1 : Nat) = 0 ∧ ¬ (0 : Nat) ∈ (InitializeMessenger 4 0 2).messageChannel :=
  ⟨by decide, by decide,
    (C9_self_exclusion 4 0 2 "NORMAL" false ⟨Payload.raw [1], "BVB", 0, []⟩
      [(1, ⟨Payload.raw [1], "BVB", 0, []⟩), (2, ⟨Payload.raw [1], "BVB", 0, []⟩),
        (3, ⟨Payload.raw [1], "BVB", 0, []⟩)] (by decide)).1
      (1, ⟨Payload.raw [1], "BVB", 0, []⟩) (by decide),
    (C9_self_exclusion 4 0 2 "NORMAL" false ⟨Payload.raw [1], "BVB", 0, []⟩
      [(1, ⟨Payload.raw [1], "BVB", 0, []⟩), (2, ⟨Payload.raw [1], "BVB", 0, []⟩),
        (3, ⟨Payload.raw [1], "BVB", 0, []⟩)] (by decide)).2.1⟩

/-! ### C2: BC_ATTACK determinism -/

theorem broadcastLoop_bcAttack (hs : Bool) (ID : Nat) (l : List Nat) :
    ∀ (m : Message) (bm : BcMessage),
      (m.type = "BVB" ∨ m.type = "BC") → decodeBc m.payload = some bm →
      broadcastLoop "BC_ATTACK" true hs ID l m =
        some ((l.filter (fun i => ¬ i = ID)).map (fun i =>
          (i, NewMessage ID (Payload.encBc ⟨bm.tag, bcAttackValue bm.tag i⟩)
            m.type))) := by
  induction l with
  | nil => intro m bm _ _; rfl
  | cons i rest ih =>
    intro m bm hty hdec
    simp only [broadcastLoop]
    by_cases hid : i = ID
    · subst hid
      rw [if_pos rfl, ih m bm hty hdec]
      simp
    · rw [if_neg hid]
      have hmod : modifyMessageBC ID m i =
          some (NewMessage ID (Payload.encBc ⟨bm.tag, bcAttackValue bm.tag i⟩)
            m.type) := by
        unfold modifyMessageBC
        rw [hdec]
      have ihx := ih
        (NewMessage ID (Payload.encBc ⟨bm.tag, bcAttackValue bm.tag i⟩) m.type)
        ⟨bm.tag, bcAttackValue bm.tag i⟩ hty rfl
      rcases hty with h | h <;> rw [h] at ihx <;>
        simp only [NewMessage] at ihx hmod <;> simp [h, hmod, ihx, hid, NewMessage]

/-- C2: under `BC_ATTACK` with the byzantine flag, a `BVB`/`BC` broadcast
enqueues, for each recipient `i ≠ ID`, a payload decoding to a `BcMessage`
whose value is `i % 2`, `0` or `1` according to `tag % 3 = 0, 1, 2`, with the
tag unchanged. -/
theorem C2_bc_attack (N ID : Nat) (m : Message) (bm : BcMessage)
    (hty : m.type = "BVB" ∨ m.type = "BC")
    (hdec : decodeBc m.payload = some bm) :
    Broadcast N ID "BC_ATTACK" true m =
      some (((List.range N).filter (fun i => ¬ i = ID)).map (fun i =>
        (i, NewMessage ID (Payload.encBc ⟨bm.tag, bcAttackValue bm.tag i⟩)
          m.type))) ∧
    ∀ p ∈ ((List.range N).filter (fun i => ¬ i = ID)).map (fun i =>
        (i, NewMessage ID (Payload.encBc ⟨bm.tag, bcAttackValue bm.tag i⟩)
          m.type)),
      decodeBc p.2.payload =
        some ⟨bm.tag,
          if bm.tag % 3 = 0 then p.1 % 2 else if bm.tag % 3 = 1 then 0 else 1⟩ := by
  constructor
  · unfold Broadcast
    rw [if_neg (by simp)]
    exact broadcastLoop_bcAttack ("BC_ATTACK" = "HALF_&_HALF") ID
      (List.range N) m bm hty hdec
  · intro p hp
    simp only [List.mem_map] at hp
    obtain ⟨i, _, rfl⟩ := hp
    have : bcAttackValue bm.tag i =
        if bm.tag % 3 = 0 then i % 2 else if bm.tag % 3 = 1 then 0 else 1 := by
      unfold bcAttackValue
      rcases h3 : bm.tag % 3 with _ | _ | k
      · simp
      · simp
      · have h1 : ¬ (k + 2 = 0) := by omega
        have h2 : ¬ (k + 2 = 1) := by omega
        simp [h1, h2]
    simp [decodeBc, NewMessage, this]

/-- Witness for C2: spec scenario 2, `N = 4`, `ID = 0`, `BC{tag=2, value=0}`;
every peer receives value `1`. -/
theorem C2_witness :
    Broadcast 4 0 "BC_ATTACK" true ⟨Payload.encBc ⟨2, 0⟩, "BC", 0, []⟩ =
      some [(1, ⟨Payload.encBc ⟨2, 1⟩, "BC", 0, []⟩),
        (2, ⟨Payload.encBc ⟨2, 1⟩, "BC", 0, []⟩),
        (3, ⟨Payload.encBc ⟨2, 1⟩, "BC", 0, []⟩)] :=
  ((C2_bc_attack 4 0 ⟨Payload.encBc ⟨2, 0⟩, "BC", 0, []⟩ ⟨2, 0⟩
    (Or.inr rfl) rfl).1).trans (by decide)

/-! ### C5: HALF_&_HALF determinism for BVB/BC -/

theorem broadcastLoop_half (ID : Nat) (l : List Nat) :
    ∀ (m : Message) (bm : BcMessage),
      (m.type = "BVB" ∨ m.type = "BC") → decodeBc m.payload = some bm →
      broadcastLoop "HALF_&_HALF" true true ID l m =
        some ((l.filter (fun i => ¬ i = ID)).map (fun i =>
          (i, NewMessage ID (Payload.encBc ⟨bm.tag, i % 2⟩) m.type))) := by
  induction l with
  | nil => intro m bm _ _; rfl
  | cons i rest ih =>
    intro m bm hty hdec
    simp only [broadcastLoop]
    by_cases hid : i = ID
    · subst hid
      rw [if_pos rfl, ih m bm hty hdec]
      simp
    · rw [if_neg hid]
      have hmod : modifyMessage ID m i true =
          some (NewMessage ID (Payload.encBc ⟨bm.tag, i % 2⟩) m.type) := by
        simp only [modifyMessage, if_pos hty, hdec]
        have := valueToSendStr_atoi true i
        simp only [if_pos rfl] at this
        simp [this]
      have ihx := ih (NewMessage ID (Payload.encBc ⟨bm.tag, i % 2⟩) m.type)
        ⟨bm.tag, i % 2⟩ hty rfl
      rcases hty with h | h <;> rw [h] at ihx <;>
        simp only [NewMessage] at ihx hmod <;> simp [h, hmod, ihx, hid, NewMessage]

/-- C5: under `HALF_&_HALF` with the byzantine flag, a `BVB`/`BC` broadcast
enqueues, for each recipient `i`, a payload decoding to a `BcMessage` with
value `i % 2` — also after the loop has already rewritten the message for
earlier recipients. -/
theorem C5_half_determinism (N ID : Nat) (m : Message) (bm : BcMessage)
    (hty : m.type = "BVB" ∨ m.type = "BC")
    (hdec : decodeBc m.payload = some bm) :
    Broadcast N ID "HALF_&_HALF" true m =
      some (((List.range N).filter (fun i => ¬ i = ID)).map (fun i =>
        (i, NewMessage ID (Payload.encBc ⟨bm.tag, i % 2⟩) m.type))) ∧
    ∀ p ∈ ((List.range N).filter (fun i => ¬ i = ID)).map (fun i =>
        (i, NewMessage ID (Payload.encBc ⟨bm.tag, i % 2⟩) m.type)),
      decodeBc p.2.payload = some ⟨bm.tag, p.1 % 2⟩ := by
  constructor
  · unfold Broadcast
    rw [if_neg (by simp)]
    have : ("HALF_&_HALF" = "HALF_&_HALF") = True := by simp
    simp only [this, decide_True]
    exact broadcastLoop_half ID (List.range N) m bm hty hdec
  · intro p hp
    simp only [List.mem_map] at hp
    obtain ⟨i, _, rfl⟩ := hp
    simp [decodeBc, NewMessage]

/-- Witness for C5: `N = 4`, `ID = 0`, `BVB{tag=7, value=1}`: peer 1 gets
value 1, peer 2 value 0, peer 3 value 1. -/
theorem C5_witness :
    Broadcast 4 0 "HALF_&_HALF" true ⟨Payload.encBc ⟨7, 1⟩, "BVB", 0, []⟩ =
      some [(1, ⟨Payload.encBc ⟨7, 1⟩, "BVB", 0, []⟩),
        (2, ⟨Payload.encBc ⟨7, 0⟩, "BVB", 0, []⟩),
        (3, ⟨Payload.encBc ⟨7, 1⟩, "BVB", 0, []⟩)] :=
  ((C5_half_determinism 4 0 ⟨Payload.encBc ⟨7, 1⟩, "BVB", 0, []⟩ ⟨7, 1⟩
    (Or.inl rfl) rfl).1).trans (by decide)

/-! ### C1: the HALF_&_HALF / BZ_ALL injector against the mutation table -/

theorem modify_eq_claimed_bvbbc (ID i : Nat) (half : Bool) (m : Message)
    (hty : m.type = "BVB" ∨ m.type = "BC") :
    modifyMessage ID m i half = claimedInjector ID m i half := by
  simp only [modifyMessage, claimedInjector, if_pos hty]
  cases hdec : decodeBc m.payload with
  | none => rfl
  | some bm => simp [hdec, valueToSendStr_atoi]

theorem modify_eq_claimed_rb (ID i : Nat) (half : Bool) (m : Message)
    (hOK : rbInnerOK m = true)
    (hty : m.type = "RB" ∨ m.type = "RB_ABC") :
    modifyMessage ID m i half = claimedInjector ID m i half := by
  have hty2 : ¬ (m.type = "BVB" ∨ m.type = "BC") := by
    rcases hty with h | h <;> rw [h] <;> decide
  simp only [modifyMessage, claimedInjector, if_neg hty2, if_pos hty]
  cases hrb : decodeRb m.payload with
  | none => rfl
  | some rm =>
    cases hmsg : decodeMsg rm.value with
    | none => simp [hmsg]
    | some inner =>
      simp only [rbInnerOK, if_pos hty, hrb, hmsg] at hOK
      have hin : inner.type = "MVC" ∨ inner.type = "VC" ∨ inner.type = "ABC" := by
        simpa using hOK
      rcases hin with h | h | h
      · cases hm : decodeMvc inner.payload <;>
          simp [h, hm, hmsg, valueToSendStr_bytes]
      · cases hm : decodeVc inner.payload <;>
          simp [h, hm, hmsg, valueToSendStr_bytes]
      · cases hm : decodeAbc inner.payload <;>
          simp [h, hm, hmsg, valueToSendStr_bytes]

theorem modify_eq_claimed_ssvc (ID i : Nat) (half : Bool) (m : Message)
    (hty : m.type = "SSVC") :
    modifyMessage ID m i half = claimedInjector ID m i half := by
  rw [modifyMessage, claimedInjector]
  cases hdec : decodeSSVC m.payload <;>
    simp [hty, hdec, ssvcMutate, valueToSendStr_bytes]

theorem modify_eq_claimed_ssabc (ID i : Nat) (half : Bool) (m : Message)
    (hty : m.type = "SSABC") :
    modifyMessage ID m i half = claimedInjector ID m i half := by
  rw [modifyMessage, claimedInjector]
  cases hdec : decodeSSABC m.payload <;>
    simp [hty, hdec, ssabcMutate, valueToSendStr_bytes]

theorem modifyMessage_shape (ID : Nat) (m : Message) (i : Nat) (half : Bool) :
    modifyMessage ID m i half = none ∨
    ∃ p, modifyMessage ID m i half = some (NewMessage ID p m.type) := by
  simp only [modifyMessage]
  split_ifs with h1 h2 h3 h4
  · cases hd : decodeBc m.payload with
    | none => exact Or.inl rfl
    | some bm => exact Or.inr ⟨_, rfl⟩
  · cases hd : decodeRb m.payload with
    | none => exact Or.inl rfl
    | some rm =>
      dsimp only
      cases hm : decodeMsg rm.value with
      | none => exact Or.inl rfl
      | some inner =>
        dsimp only
        split_ifs with g1 g2 g3
        · cases hi : decodeMvc inner.payload with
          | none => exact Or.inl rfl
          | some x => exact Or.inr ⟨_, rfl⟩
        · cases hi : decodeVc inner.payload with
          | none => exact Or.inl rfl
          | some x => exact Or.inr ⟨_, rfl⟩
        · cases hi : decodeAbc inner.payload with
          | none => exact Or.inl rfl
          | some x => exact Or.inr ⟨_, rfl⟩
        · exact Or.inr ⟨_, rfl⟩
  · cases hd : decodeSSVC m.payload with
    | none => exact Or.inl rfl
    | some x => exact Or.inr ⟨_, rfl⟩
  · cases hd : decodeSSABC m.payload with
    | none => exact Or.inl rfl
    | some x => exact Or.inr ⟨_, rfl⟩
  · exact Or.inr ⟨_, rfl⟩

theorem modifyMessage_type (ID : Nat) (m : Message) (i : Nat) (half : Bool)
    (m2 : Message) (h : modifyMessage ID m i half = some m2) :
    m2.type = m.type := by
  rcases modifyMessage_shape ID m i half with hs | ⟨p, hs⟩
  · rw [hs] at h
    cases h
  · rw [hs] at h
    simp only [Option.some.injEq] at h
    subst h
    rfl

theorem broadcastLoop_injector (sc : String)
    (hsc : sc = "HALF_&_HALF" ∨ sc = "BZ_ALL") (hs : Bool) (ID : Nat)
    (l : List Nat) : ∀ (m : Message) (sends : List (Nat × Message)),
    ¬ m.type = "SSVCDS" → broadcastLoop sc true hs ID l m = some sends →
    ∀ p ∈ sends, ∃ prev, ¬ prev.type = "SSVCDS" ∧
      modifyMessage ID prev p.1 hs = some p.2 := by
  have hbc : ¬ sc = "BC_ATTACK" := by
    rcases hsc with h | h <;> subst h <;> decide
  induction l with
  | nil =>
    intro m sends _ h p hp
    simp only [broadcastLoop, Option.some.injEq] at h
    subst h
    cases hp
  | cons i rest ih =>
    intro m sends hty h p hp
    simp only [broadcastLoop, if_neg hty] at h
    by_cases hid : i = ID
    · rw [if_pos hid] at h
      exact ih m sends hty h p hp
    · rw [if_neg hid, if_neg (fun hand => hbc hand.1), if_pos ⟨hsc, trivial⟩] at h
      cases hmod : modifyMessage ID m i hs with
      | none => rw [hmod] at h; cases h
      | some m2 =>
        rw [hmod] at h
        dsimp only at h
        cases hrest : broadcastLoop sc true hs ID rest m2 with
        | none => rw [hrest] at h; cases h
        | some sends2 =>
          rw [hrest] at h
          simp only [Option.some.injEq] at h
          subst h
          have hty2 : ¬ m2.type = "SSVCDS" := by
            rw [modifyMessage_type ID m i hs m2 hmod]
            exact hty
          rcases List.mem_cons.mp hp with rfl | hp2
          · exact ⟨m, hty, hmod⟩
          · exact ih m2 sends2 hty2 hrest p hp2

/-- C1 (amended): under the `HALF_&_HALF` / `BZ_ALL` injector, the types the
mutation table lists — `BVB`, `BC`, `RB`, `RB_ABC`, `SSVC`, `SSABC` — are
rewritten exactly as the spec words it (value fields overwritten with
`value_to_send`, the rest preserved through the re-encoding), provided the
nested type of an `RB`/`RB_ABC` is one of the listed `MVC`/`VC`/`ABC`.  Any
other type — in particular a top-level `MVC`, `VC` or `ABC` message — leaves
`newPayload` unassigned, so the injector returns an envelope whose payload is
the nil byte slice: the original content does not survive. -/
theorem C1_injector_amended (ID : Nat) (m : Message) (i : Nat) (half : Bool)
    (hOK : rbInnerOK m = true) :
    (m.type = "BVB" ∨ m.type = "BC" ∨ m.type = "RB" ∨ m.type = "RB_ABC" ∨
      m.type = "SSVC" ∨ m.type = "SSABC" →
      modifyMessage ID m i half = claimedInjector ID m i half) ∧
    (¬ m.type = "BVB" → ¬ m.type = "BC" → ¬ m.type = "RB" →
      ¬ m.type = "RB_ABC" → ¬ m.type = "SSVC" → ¬ m.type = "SSABC" →
      modifyMessage ID m i half = some (NewMessage ID Payload.nilP m.type)) ∧
    (∀ (N : Nat) (sc : String) (sends : List (Nat × Message)),
      sc = "HALF_&_HALF" ∨ sc = "BZ_ALL" → ¬ m.type = "SSVCDS" →
      Broadcast N ID sc true m = some sends →
      ∀ p ∈ sends, ∃ prev, ¬ prev.type = "SSVCDS" ∧
        modifyMessage ID prev p.1 (sc = "HALF_&_HALF") = some p.2) := by
  refine ⟨?_, ?_, ?_⟩
  · intro hty
    rcases hty with h | h | h | h | h | h
    · exact modify_eq_claimed_bvbbc ID i half m (Or.inl h)
    · exact modify_eq_claimed_bvbbc ID i half m (Or.inr h)
    · exact modify_eq_claimed_rb ID i half m hOK (Or.inl h)
    · exact modify_eq_claimed_rb ID i half m hOK (Or.inr h)
    · exact modify_eq_claimed_ssvc ID i half m h
    · exact modify_eq_claimed_ssabc ID i half m h
  · intro h1 h2 h3 h4 h5 h6
    simp [modifyMessage, h1, h2, h3, h4, h5, h6]
  · intro N sc sends hsc hty hb
    unfold Broadcast at hb
    rw [if_neg (by rcases hsc with h | h <;> subst h <;> simp)] at hb
    exact broadcastLoop_injector sc hsc (decide (sc = "HALF_&_HALF")) ID
      (List.range N) m sends hty hb

/-- Counterexample to C1 as stated: a top-level `MVC` message under the
`HALF_&_HALF` injector does not get its `value` overwritten with the rest of
the message surviving — `modifyMessage` returns the nil payload, the `cid`
and original content are lost, and the result differs from the spec-worded
mutation (`claimedInjector`), whose payload would still decode as an
`MvcMessage`. -/
theorem C1_counterexample :
    modifyMessage 0 ⟨Payload.encMvc ⟨7, [104, 105]⟩, "MVC", 2, [3]⟩ 1 true =
      some ⟨Payload.nilP, "MVC", 0, []⟩ ∧
    claimedInjector 0 ⟨Payload.encMvc ⟨7, [104, 105]⟩, "MVC", 2, [3]⟩ 1 true =
      some ⟨Payload.encMvc ⟨7, [49]⟩, "MVC", 0, []⟩ ∧
    ¬ modifyMessage 0 ⟨Payload.encMvc ⟨7, [104, 105]⟩, "MVC", 2, [3]⟩ 1 true =
      claimedInjector 0 ⟨Payload.encMvc ⟨7, [104, 105]⟩, "MVC", 2, [3]⟩ 1 true ∧
    decodeMvc Payload.nilP = none := by
  refine ⟨by decide, by decide, by decide, rfl⟩

/-- Witness for the amended C1 on a well-formed `RB`-wrapped `MVC` message. -/
theorem C1_witness :
    rbInnerOK ⟨Payload.encRb 3 "MVC"
        (Payload.encMsg (Payload.encMvc ⟨9, [104]⟩) "MVC" 1 [2]), "RB", 1, [2]⟩ =
      true ∧
    modifyMessage 0 ⟨Payload.encRb 3 "MVC"
        (Payload.encMsg (Payload.encMvc ⟨9, [104]⟩) "MVC" 1 [2]), "RB", 1, [2]⟩
        1 true =
      claimedInjector 0 ⟨Payload.encRb 3 "MVC"
        (Payload.encMsg (Payload.encMvc ⟨9, [104]⟩) "MVC" 1 [2]), "RB", 1, [2]⟩
        1 true :=
  ⟨by decide,
    (C1_injector_amended 0 ⟨Payload.encRb 3 "MVC"
        (Payload.encMsg (Payload.encMvc ⟨9, [104]⟩) "MVC" 1 [2]), "RB", 1, [2]⟩
        1 true (by decide)).1 (Or.inr (Or.inr (Or.inl rfl)))⟩

/-! ### C6: SSABC mutation sets value and num on every staged entry -/

/-- C6: on the `HALF_&_HALF` / `BZ_ALL` injector path for an `SSABC` message,
every entry under the stage labels `init`, `echo`, `ready` has its `value`
overwritten with the `value_to_send` bytes and its `num` set to
`UINT32_MAX / 2 = 2147483647`, and the re-encoded content keeps the stage
labels. -/
theorem C6_ssabc_num (ID i : Nat) (half : Bool) (m : Message)
    (sm : SSABCMessage) (hty : m.type = "SSABC")
    (hdec : decodeSSABC m.payload = some sm) :
    modifyMessage ID m i half =
      some (NewMessage ID
        (Payload.encSSABC
          { sm with content := ssabcMutate (strBytes (valueToSendStr half i)) sm.content })
        "SSABC") ∧
    (ssabcMutate (strBytes (valueToSendStr half i)) sm.content).map Prod.fst =
      sm.content.map Prod.fst ∧
    ∀ kv ∈ ssabcMutate (strBytes (valueToSendStr half i)) sm.content,
      (kv.1 = "init" ∨ kv.1 = "echo" ∨ kv.1 = "ready") →
      ∀ e ∈ kv.2, e.value = strBytes (valueToSendStr half i) ∧
        e.num = 2147483647 := by
  refine ⟨?_, ?_, ?_⟩
  · rw [modifyMessage]
    simp [hty, hdec]
  · unfold ssabcMutate
    rw [List.map_map]
    apply List.map_congr_left
    intro kv _
    by_cases hk : kv.1 = "init" ∨ kv.1 = "echo" ∨ kv.1 = "ready" <;>
      simp [hk]
  · intro kv hkv hk e he
    simp only [ssabcMutate, List.mem_map] at hkv
    obtain ⟨kv0, _, rfl⟩ := hkv
    by_cases hk0 : kv0.1 = "init" ∨ kv0.1 = "echo" ∨ kv0.1 = "ready"
    · rw [if_pos hk0] at he
      simp only [List.mem_map] at he
      obtain ⟨e0, _, rfl⟩ := he
      exact ⟨rfl, by norm_num⟩
    · rw [if_neg hk0] at hk
      exact absurd hk hk0

/-- Witness for C6 on a concrete `SSABC` message, recipient 3,
`HALF_&_HALF`. -/
theorem C6_witness :
    modifyMessage 0 ⟨Payload.encSSABC ⟨[("init", [⟨[5], 9⟩]), ("echo", []),
        ("other", [⟨[1], 2⟩]), ("ready", [⟨[7], 1⟩])]⟩, "SSABC", 1, []⟩ 3 true =
      some ⟨Payload.encSSABC ⟨[("init", [⟨[49], 2147483647⟩]), ("echo", []),
        ("other", [⟨[1], 2⟩]), ("ready", [⟨[49], 2147483647⟩])]⟩,
        "SSABC", 0, []⟩ :=
  ((C6_ssabc_num 0 3 true
    ⟨Payload.encSSABC ⟨[("init", [⟨[5], 9⟩]), ("echo", []),
      ("other", [⟨[1], 2⟩]), ("ready", [⟨[7], 1⟩])]⟩, "SSABC", 1, []⟩
    ⟨[("init", [⟨[5], 9⟩]), ("echo", []), ("other", [⟨[1], 2⟩]),
      ("ready", [⟨[7], 1⟩])]⟩ rfl rfl).1).trans (by decide)

/-! ### C7: the authentication gate -/

/-- A verifier that rejects everything, for concrete runs. -/
def verifyFalse : Payload → List Nat → Nat → Bool := fun _ _ _ => false

/-- A verifier that accepts everything, for concrete runs. -/
def verifyTrue : Payload → List Nat → Nat → Bool := fun _ _ _ => true

/-- The dispatcher's initial state: all routing tables empty. -/
def emptyDispatch : DispatchState := ⟨[], [], [], [], [], [], [], 0⟩

/-- C7: a frame whose `verify` returns false is dropped by `HandleMessage`
without any send on any instance queue or global channel and without touching
the routing tables; messages are routed only on `verify = true`. -/
theorem C7_auth_gate (verify : Payload → List Nat → Nat → Bool)
    (s : DispatchState) (frame : Payload) (message : Message)
    (hdec : decodeMsg frame = some message)
    (hv : verify message.payload message.signature message.sender = false) :
    HandleMessage verify s frame = some (s, []) := by
  simp [HandleMessage, hdec, hv]

/-- Witness for C7 at a concrete rejected frame. -/
theorem C7_witness :
    decodeMsg (Payload.encMsg (Payload.encBc ⟨5, 1⟩) "BVB" 1 [2]) =
      some ⟨Payload.encBc ⟨5, 1⟩, "BVB", 1, [2]⟩ ∧
    verifyFalse (Payload.encBc ⟨5, 1⟩) [2] 1 = false ∧
    HandleMessage verifyFalse emptyDispatch
      (Payload.encMsg (Payload.encBc ⟨5, 1⟩) "BVB" 1 [2]) =
      some (emptyDispatch, []) :=
  ⟨rfl, rfl, C7_auth_gate verifyFalse emptyDispatch
    (Payload.encMsg (Payload.encBc ⟨5, 1⟩) "BVB" 1 [2])
    ⟨Payload.encBc ⟨5, 1⟩, "BVB", 1, [2]⟩ rfl rfl⟩

/-! ### C10: unknown type tags are silently discarded -/

/-- C10: a successfully decoded and verified envelope whose type tag is none
of the ten known tags is discarded by the type switch (which has no default
branch): `HandleMessage` returns with no routing, no state change and no
error. -/
theorem C10_unknown_tag (verify : Payload → List Nat → Nat → Bool)
    (s : DispatchState) (frame : Payload) (message : Message)
    (hdec : decodeMsg frame = some message)
    (hv : verify message.payload message.signature message.sender = true)
    (hty : ¬ message.type ∈ (["BVB", "BC", "RB", "RB_ABC", "MVC", "VC", "ABC",
      "SSVC", "SSVCDS", "SSABC"] : List String)) :
    HandleMessage verify s frame = some (s, []) := by
  simp only [List.mem_cons, List.not_mem_nil, or_false] at hty
  push_neg at hty
  obtain ⟨h1, h2, h3, h4, h5, h6, h7, h8, h9, h10⟩ := hty
  simp [HandleMessage, hdec, hv, h1, h2, h3, h4, h5, h6, h7, h8, h9, h10]

/-- Witness for C10 at a concrete frame with tag `"GOSSIP"`. -/
theorem C10_witness :
    decodeMsg (Payload.encMsg (Payload.raw [3]) "GOSSIP" 2 []) =
      some ⟨Payload.raw [3], "GOSSIP", 2, []⟩ ∧
    verifyTrue (Payload.raw [3]) [] 2 = true ∧
    HandleMessage verifyTrue emptyDispatch
      (Payload.encMsg (Payload.raw [3]) "GOSSIP" 2 []) =
      some (emptyDispatch, []) :=
  ⟨rfl, rfl, C10_unknown_tag verifyTrue emptyDispatch
    (Payload.encMsg (Payload.raw [3]) "GOSSIP" 2 [])
    ⟨Payload.raw [3], "GOSSIP", 2, []⟩ rfl rfl (by decide)⟩

/-! ### C8: lazy creation keeps channels stable -/

theorem lookupChan_getOrCreate_preserved {α : Type} [DecidableEq α]
    (tbl : List (α × Nat)) (key : α) (next : Nat) (k : α) (c : Nat)
    (h : lookupChan tbl k = some c) :
    lookupChan (getOrCreate tbl key next).1 k = some c := by
  unfold getOrCreate
  cases hk : lookupChan tbl key with
  | some c0 => simpa using h
  | none =>
    by_cases hkk : k = key
    · subst hkk
      rw [h] at hk
      cases hk
    · simpa [lookupChan, hkk] using h

theorem lookupChan_getOrCreate_self {α : Type} [DecidableEq α]
    (tbl : List (α × Nat)) (key : α) (next : Nat) :
    lookupChan (getOrCreate tbl key next).1 key =
      some (getOrCreate tbl key next).2.1 := by
  unfold getOrCreate
  cases hk : lookupChan tbl key with
  | some c0 => simpa using hk
  | none => simp [lookupChan]

/-- Every channel binding of `s` survives into `s2`, table by table: once a
key is mapped to a channel it is never removed or replaced. -/
def tablesPreserved (s s2 : DispatchState) : Prop :=
  (∀ k c, lookupChan s.bvbChannel k = some c →
    lookupChan s2.bvbChannel k = some c) ∧
  (∀ k c, lookupChan s.bcChannel k = some c →
    lookupChan s2.bcChannel k = some c) ∧
  (∀ k c, lookupChan s.rbChannel k = some c →
    lookupChan s2.rbChannel k = some c) ∧
  (∀ k c, lookupChan s.mvcChannel k = some c →
    lookupChan s2.mvcChannel k = some c) ∧
  (∀ k c, lookupChan s.vcChannel k = some c →
    lookupChan s2.vcChannel k = some c) ∧
  (∀ k c, lookupChan s.ssvcChannel k = some c →
    lookupChan s2.ssvcChannel k = some c) ∧
  (∀ k c, lookupChan s.ssvcDecisionsChannel k = some c →
    lookupChan s2.ssvcDecisionsChannel k = some c)

theorem tablesPreserved_refl (s : DispatchState) : tablesPreserved s s :=
  ⟨fun _ _ h => h, fun _ _ h => h, fun _ _ h => h, fun _ _ h => h,
    fun _ _ h => h, fun _ _ h => h, fun _ _ h => h⟩

theorem tablesPreserved_trans (a b c : DispatchState)
    (h1 : tablesPreserved a b) (h2 : tablesPreserved b c) :
    tablesPreserved a c :=
  ⟨fun k v h => h2.1 k v (h1.1 k v h),
    fun k v h => h2.2.1 k v (h1.2.1 k v h),
    fun k v h => h2.2.2.1 k v (h1.2.2.1 k v h),
    fun k v h => h2.2.2.2.1 k v (h1.2.2.2.1 k v h),
    fun k v h => h2.2.2.2.2.1 k v (h1.2.2.2.2.1 k v h),
    fun k v h => h2.2.2.2.2.2.1 k v (h1.2.2.2.2.2.1 k v h),
    fun k v h => h2.2.2.2.2.2.2 k v (h1.2.2.2.2.2.2 k v h)⟩

/-- A routed send is consistent with a dispatcher state when the channel it
was delivered on is the one the state's table holds for its instance key
(global-channel sends carry no key). -/
def routedConsistent (s : DispatchState) : Routed → Prop
  | Routed.bvb c m _ => lookupChan s.bvbChannel m.tag = some c
  | Routed.bc c m _ => lookupChan s.bcChannel m.tag = some c
  | Routed.rb c m _ => lookupChan s.rbChannel (m.rtype, m.rbid) = some c
  | Routed.mvc c m _ => lookupChan s.mvcChannel m.cid = some c
  | Routed.vc c m _ => lookupChan s.vcChannel m.vcid = some c
  | Routed.ssvc c m _ => lookupChan s.ssvcChannel m.ssvcid = some c
  | Routed.ssvcds c m _ => lookupChan s.ssvcDecisionsChannel m.ssvcid = some c
  | _ => True

theorem routedConsistent_mono (s s2 : DispatchState)
    (hp : tablesPreserved s s2) :
    ∀ x, routedConsistent s x → routedConsistent s2 x := by
  intro x hx
  cases x with
  | bvb c m f => exact hp.1 _ _ hx
  | bc c m f => exact hp.2.1 _ _ hx
  | rb c m f => exact hp.2.2.1 _ _ hx
  | mvc c m f => exact hp.2.2.2.1 _ _ hx
  | vc c m f => exact hp.2.2.2.2.1 _ _ hx
  | ssvc c m f => exact hp.2.2.2.2.2.1 _ _ hx
  | ssvcds c m f => exact hp.2.2.2.2.2.2 _ _ hx
  | rbAbc m f => trivial
  | abc m f => trivial
  | ssabc m f => trivial

theorem handleMessage_step (verify : Payload → List Nat → Nat → Bool)
    (s : DispatchState) (frame : Payload) (s2 : DispatchState)
    (r : List Routed)
    (h : HandleMessage verify s frame = some (s2, r)) :
    tablesPreserved s s2 ∧ ∀ x ∈ r, routedConsistent s2 x := by
  rw [HandleMessage] at h
  cases hdec : decodeMsg frame with
  | none => rw [hdec] at h; cases h
  | some message =>
    rw [hdec] at h
    dsimp only at h
    by_cases hv : verify message.payload message.signature message.sender = true
    case neg =>
      rw [if_pos hv] at h
      simp only [Option.some.injEq, Prod.mk.injEq] at h
      obtain ⟨hs2, hr⟩ := h
      subst hs2; subst hr
      exact ⟨tablesPreserved_refl s, fun x hx => absurd hx (List.not_mem_nil x)⟩
    case pos =>
      rw [if_neg (not_not_intro hv)] at h
      by_cases ht0 : message.type = "BVB"
      case pos =>
        rw [if_pos ht0] at h
        cases hin0 : decodeBc message.payload with
        | none => rw [hin0] at h; cases h
        | some bm =>
          rw [hin0] at h
          dsimp only at h
          simp only [Option.some.injEq, Prod.mk.injEq] at h
          obtain ⟨hs2, hr⟩ := h
          subst hs2; subst hr
          refine ⟨⟨fun k c hc => lookupChan_getOrCreate_preserved _ _ _ _ _ hc,
            fun k c hc => hc,
            fun k c hc => hc,
            fun k c hc => hc,
            fun k c hc => hc,
            fun k c hc => hc,
            fun k c hc => hc⟩, ?_⟩
          intro x hx
          simp only [List.mem_singleton] at hx
          subst hx
          exact lookupChan_getOrCreate_self s.bvbChannel bm.tag s.nextChan
      case neg =>
        rw [if_neg ht0] at h
        by_cases ht1 : message.type = "BC"
        case pos =>
          rw [if_pos ht1] at h
          cases hin1 : decodeBc message.payload with
          | none => rw [hin1] at h; cases h
          | some bm =>
            rw [hin1] at h
            dsimp only at h
            simp only [Option.some.injEq, Prod.mk.injEq] at h
            obtain ⟨hs2, hr⟩ := h
            subst hs2; subst hr
            refine ⟨⟨fun k c hc => hc,
              fun k c hc => lookupChan_getOrCreate_preserved _ _ _ _ _ hc,
              fun k c hc => hc,
              fun k c hc => hc,
              fun k c hc => hc,
              fun k c hc => hc,
              fun k c hc => hc⟩, ?_⟩
            intro x hx
            simp only [List.mem_singleton] at hx
            subst hx
            exact lookupChan_getOrCreate_self s.bcChannel bm.tag s.nextChan
        case neg =>
          rw [if_neg ht1] at h
          by_cases ht2 : message.type = "RB"
          case pos =>
            rw [if_pos ht2] at h
            cases hin2 : decodeRb message.payload with
            | none => rw [hin2] at h; cases h
            | some rm =>
              rw [hin2] at h
              dsimp only at h
              by_cases hrt : rm.rtype = "MVC" ∨ rm.rtype = "VC"
              case neg => rw [if_neg hrt] at h; cases h
              case pos =>
                rw [if_pos hrt] at h
                simp only [Option.some.injEq, Prod.mk.injEq] at h
                obtain ⟨hs2, hr⟩ := h
                subst hs2; subst hr
                refine ⟨⟨fun k c hc => hc,
                  fun k c hc => hc,
                  fun k c hc => lookupChan_getOrCreate_preserved _ _ _ _ _ hc,
                  fun k c hc => hc,
                  fun k c hc => hc,
                  fun k c hc => hc,
                  fun k c hc => hc⟩, ?_⟩
                intro x hx
                simp only [List.mem_singleton] at hx
                subst hx
                exact lookupChan_getOrCreate_self s.rbChannel (rm.rtype, rm.rbid) s.nextChan
          case neg =>
            rw [if_neg ht2] at h
            by_cases ht3 : message.type = "RB_ABC"
            case pos =>
              rw [if_pos ht3] at h
              cases hin3 : decodeRb message.payload with
              | none => rw [hin3] at h; cases h
              | some rm =>
                rw [hin3] at h
                dsimp only at h
                simp only [Option.some.injEq, Prod.mk.injEq] at h
                obtain ⟨hs2, hr⟩ := h
                subst hs2; subst hr
                refine ⟨tablesPreserved_refl s, ?_⟩
                intro x hx
                simp only [List.mem_singleton] at hx
                subst hx
                trivial
            case neg =>
              rw [if_neg ht3] at h
              by_cases ht4 : message.type = "MVC"
              case pos =>
                rw [if_pos ht4] at h
                cases hin4 : decodeMvc message.payload with
                | none => rw [hin4] at h; cases h
                | some mm =>
                  rw [hin4] at h
                  dsimp only at h
                  simp only [Option.some.injEq, Prod.mk.injEq] at h
                  obtain ⟨hs2, hr⟩ := h
                  subst hs2; subst hr
                  refine ⟨⟨fun k c hc => hc,
                    fun k c hc => hc,
                    fun k c hc => hc,
                    fun k c hc => lookupChan_getOrCreate_preserved _ _ _ _ _ hc,
                    fun k c hc => hc,
                    fun k c hc => hc,
                    fun k c hc => hc⟩, ?_⟩
                  intro x hx
                  simp only [List.mem_singleton] at hx
                  subst hx
                  exact lookupChan_getOrCreate_self s.mvcChannel mm.cid s.nextChan
              case neg =>
                rw [if_neg ht4] at h
                by_cases ht5 : message.type = "VC"
                case pos =>
                  rw [if_pos ht5] at h
                  cases hin5 : decodeVc message.payload with
                  | none => rw [hin5] at h; cases h
                  | some vm =>
                    rw [hin5] at h
                    dsimp only at h
                    simp only [Option.some.injEq, Prod.mk.injEq] at h
                    obtain ⟨hs2, hr⟩ := h
                    subst hs2; subst hr
                    refine ⟨⟨fun k c hc => hc,
                      fun k c hc => hc,
                      fun k c hc => hc,
                      fun k c hc => hc,
                      fun k c hc => lookupChan_getOrCreate_preserved _ _ _ _ _ hc,
                      fun k c hc => hc,
                      fun k c hc => hc⟩, ?_⟩
                    intro x hx
                    simp only [List.mem_singleton] at hx
                    subst hx
                    exact lookupChan_getOrCreate_self s.vcChannel vm.vcid s.nextChan
                case neg =>
                  rw [if_neg ht5] at h
                  by_cases ht6 : message.type = "ABC"
                  case pos =>
                    rw [if_pos ht6] at h
                    cases hin6 : decodeAbc message.payload with
                    | none => rw [hin6] at h; cases h
                    | some am =>
                      rw [hin6] at h
                      dsimp only at h
                      simp only [Option.some.injEq, Prod.mk.injEq] at h
                      obtain ⟨hs2, hr⟩ := h
                      subst hs2; subst hr
                      refine ⟨tablesPreserved_refl s, ?_⟩
                      intro x hx
                      simp only [List.mem_singleton] at hx
                      subst hx
                      trivial
                  case neg =>
                    rw [if_neg ht6] at h
                    by_cases ht7 : message.type = "SSVC"
                    case pos =>
                      rw [if_pos ht7] at h
                      cases hin7 : decodeSSVC message.payload with
                      | none => rw [hin7] at h; cases h
                      | some sm =>
                        rw [hin7] at h
                        dsimp only at h
                        simp only [Option.some.injEq, Prod.mk.injEq] at h
                        obtain ⟨hs2, hr⟩ := h
                        subst hs2; subst hr
                        refine ⟨⟨fun k c hc => hc,
                          fun k c hc => hc,
                          fun k c hc => hc,
                          fun k c hc => hc,
                          fun k c hc => hc,
                          fun k c hc => lookupChan_getOrCreate_preserved _ _ _ _ _ hc,
                          fun k c hc => hc⟩, ?_⟩
                        intro x hx
                        simp only [List.mem_singleton] at hx
                        subst hx
                        exact lookupChan_getOrCreate_self s.ssvcChannel sm.ssvcid s.nextChan
                    case neg =>
                      rw [if_neg ht7] at h
                      by_cases ht8 : message.type = "SSVCDS"
                      case pos =>
                        rw [if_pos ht8] at h
                        cases hin8 : decodeSSVCDS message.payload with
                        | none => rw [hin8] at h; cases h
                        | some dm =>
                          rw [hin8] at h
                          dsimp only at h
                          simp only [Option.some.injEq, Prod.mk.injEq] at h
                          obtain ⟨hs2, hr⟩ := h
                          subst hs2; subst hr
                          refine ⟨⟨fun k c hc => hc,
                            fun k c hc => hc,
                            fun k c hc => hc,
                            fun k c hc => hc,
                            fun k c hc => hc,
                            fun k c hc => hc,
                            fun k c hc => lookupChan_getOrCreate_preserved _ _ _ _ _ hc⟩, ?_⟩
                          intro x hx
                          simp only [List.mem_singleton] at hx
                          subst hx
                          exact lookupChan_getOrCreate_self s.ssvcDecisionsChannel dm.ssvcid s.nextChan
                      case neg =>
                        rw [if_neg ht8] at h
                        by_cases ht9 : message.type = "SSABC"
                        case pos =>
                          rw [if_pos ht9] at h
                          cases hin9 : decodeSSABC message.payload with
                          | none => rw [hin9] at h; cases h
                          | some sm =>
                            rw [hin9] at h
                            dsimp only at h
                            simp only [Option.some.injEq, Prod.mk.injEq] at h
                            obtain ⟨hs2, hr⟩ := h
                            subst hs2; subst hr
                            refine ⟨tablesPreserved_refl s, ?_⟩
                            intro x hx
                            simp only [List.mem_singleton] at hx
                            subst hx
                            trivial
                        case neg =>
                          rw [if_neg ht9] at h
                          simp only [Option.some.injEq, Prod.mk.injEq] at h
                          obtain ⟨hs2, hr⟩ := h
                          subst hs2; subst hr
                          exact ⟨tablesPreserved_refl s, fun x hx => absurd hx (List.not_mem_nil x)⟩

theorem handleAll_run (verify : Payload → List Nat → Nat → Bool)
    (fs : List Payload) : ∀ (s s2 : DispatchState) (r : List Routed),
    HandleAll verify s fs = some (s2, r) →
    tablesPreserved s s2 ∧ ∀ x ∈ r, routedConsistent s2 x := by
  induction fs with
  | nil =>
    intro s s2 r h
    simp only [HandleAll, Option.some.injEq, Prod.mk.injEq] at h
    obtain ⟨hs2, hr⟩ := h
    subst hs2; subst hr
    exact ⟨tablesPreserved_refl s, fun x hx => absurd hx (List.not_mem_nil x)⟩
  | cons f fs ih =>
    intro s s2 r h
    rw [HandleAll] at h
    cases h1 : HandleMessage verify s f with
    | none => rw [h1] at h; cases h
    | some p =>
      obtain ⟨s1, r1⟩ := p
      rw [h1] at h
      dsimp only at h
      cases h2 : HandleAll verify s1 fs with
      | none => rw [h2] at h; cases h
      | some q =>
        obtain ⟨sEnd, r2⟩ := q
        rw [h2] at h
        simp only [Option.some.injEq, Prod.mk.injEq] at h
        obtain ⟨hs2, hr⟩ := h
        subst hs2; subst hr
        obtain ⟨hp1, hc1⟩ := handleMessage_step verify s f s1 r1 h1
        obtain ⟨hp2, hc2⟩ := ih s1 sEnd r2 h2
        refine ⟨tablesPreserved_trans s s1 sEnd hp1 hp2, ?_⟩
        intro x hx
        rcases List.mem_append.mp hx with hx1 | hx2
        · exact routedConsistent_mono s1 sEnd hp2 x (hc1 x hx1)
        · exact hc2 x hx2

/-- Any two sends of the run that target the same typed table with the same
instance key were delivered on the same channel. -/
def sameInstanceSameChannel (r : List Routed) : Prop :=
  (∀ c1 m1 f1 c2 m2 f2, Routed.bvb c1 m1 f1 ∈ r → Routed.bvb c2 m2 f2 ∈ r →
    m1.tag = m2.tag → c1 = c2) ∧
  (∀ c1 m1 f1 c2 m2 f2, Routed.bc c1 m1 f1 ∈ r → Routed.bc c2 m2 f2 ∈ r →
    m1.tag = m2.tag → c1 = c2) ∧
  (∀ c1 m1 f1 c2 m2 f2, Routed.rb c1 m1 f1 ∈ r → Routed.rb c2 m2 f2 ∈ r →
    m1.rtype = m2.rtype → m1.rbid = m2.rbid → c1 = c2) ∧
  (∀ c1 m1 f1 c2 m2 f2, Routed.mvc c1 m1 f1 ∈ r → Routed.mvc c2 m2 f2 ∈ r →
    m1.cid = m2.cid → c1 = c2) ∧
  (∀ c1 m1 f1 c2 m2 f2, Routed.vc c1 m1 f1 ∈ r → Routed.vc c2 m2 f2 ∈ r →
    m1.vcid = m2.vcid → c1 = c2) ∧
  (∀ c1 m1 f1 c2 m2 f2, Routed.ssvc c1 m1 f1 ∈ r → Routed.ssvc c2 m2 f2 ∈ r →
    m1.ssvcid = m2.ssvcid → c1 = c2) ∧
  (∀ c1 m1 f1 c2 m2 f2, Routed.ssvcds c1 m1 f1 ∈ r → Routed.ssvcds c2 m2 f2 ∈ r →
    m1.ssvcid = m2.ssvcid → c1 = c2)

/-- C8: over any run of the dispatcher, (i) every channel binding present in
a routing table survives unchanged — a queue is created only when its
instance key is absent and is afterwards only reused, never removed or
replaced; (ii) every keyed send went to the channel the final table holds for
its key; and therefore (iii) any two messages with the same instance key were
delivered to the same channel. -/
theorem C8_lazy_creation_stable (verify : Payload → List Nat → Nat → Bool)
    (s : DispatchState) (frames : List Payload) (s2 : DispatchState)
    (r : List Routed) (h : HandleAll verify s frames = some (s2, r)) :
    tablesPreserved s s2 ∧ (∀ x ∈ r, routedConsistent s2 x) ∧
    sameInstanceSameChannel r := by
  obtain ⟨hp, hc⟩ := handleAll_run verify frames s s2 r h
  refine ⟨hp, hc, ?_, ?_, ?_, ?_, ?_, ?_, ?_⟩
  · intro c1 m1 f1 c2 m2 f2 h1 h2 hk
    have e1 : lookupChan s2.bvbChannel m1.tag = some c1 := hc _ h1
    have e2 : lookupChan s2.bvbChannel m2.tag = some c2 := hc _ h2
    rw [hk] at e1
    rw [e1] at e2
    exact (Option.some.injEq _ _).mp e2
  · intro c1 m1 f1 c2 m2 f2 h1 h2 hk
    have e1 : lookupChan s2.bcChannel m1.tag = some c1 := hc _ h1
    have e2 : lookupChan s2.bcChannel m2.tag = some c2 := hc _ h2
    rw [hk] at e1
    rw [e1] at e2
    exact (Option.some.injEq _ _).mp e2
  · intro c1 m1 f1 c2 m2 f2 h1 h2 hk1 hk2
    have e1 : lookupChan s2.rbChannel (m1.rtype, m1.rbid) = some c1 := hc _ h1
    have e2 : lookupChan s2.rbChannel (m2.rtype, m2.rbid) = some c2 := hc _ h2
    rw [hk1, hk2] at e1
    rw [e1] at e2
    exact (Option.some.injEq _ _).mp e2
  · intro c1 m1 f1 c2 m2 f2 h1 h2 hk
    have e1 : lookupChan s2.mvcChannel m1.cid = some c1 := hc _ h1
    have e2 : lookupChan s2.mvcChannel m2.cid = some c2 := hc _ h2
    rw [hk] at e1
    rw [e1] at e2
    exact (Option.some.injEq _ _).mp e2
  · intro c1 m1 f1 c2 m2 f2 h1 h2 hk
    have e1 : lookupChan s2.vcChannel m1.vcid = some c1 := hc _ h1
    have e2 : lookupChan s2.vcChannel m2.vcid = some c2 := hc _ h2
    rw [hk] at e1
    rw [e1] at e2
    exact (Option.some.injEq _ _).mp e2
  · intro c1 m1 f1 c2 m2 f2 h1 h2 hk
    have e1 : lookupChan s2.ssvcChannel m1.ssvcid = some c1 := hc _ h1
    have e2 : lookupChan s2.ssvcChannel m2.ssvcid = some c2 := hc _ h2
    rw [hk] at e1
    rw [e1] at e2
    exact (Option.some.injEq _ _).mp e2
  · intro c1 m1 f1 c2 m2 f2 h1 h2 hk
    have e1 : lookupChan s2.ssvcDecisionsChannel m1.ssvcid = some c1 := hc _ h1
    have e2 : lookupChan s2.ssvcDecisionsChannel m2.ssvcid = some c2 := hc _ h2
    rw [hk] at e1
    rw [e1] at e2
    exact (Option.some.injEq _ _).mp e2

/-- Witness for C8: two `BVB` frames with the same tag from different peers
(spec scenario 4 adapted): the queue is created once and both reach channel
`0`. -/
theorem C8_witness :
    HandleAll verifyTrue emptyDispatch
        [Payload.encMsg (Payload.encBc ⟨5, 1⟩) "BVB" 1 [],
          Payload.encMsg (Payload.encBc ⟨5, 0⟩) "BVB" 2 []] =
      some (⟨[(5, 0)], [], [], [], [], [], [], 1⟩,
        [Routed.bvb 0 ⟨5, 1⟩ 1, Routed.bvb 0 ⟨5, 0⟩ 2]) ∧
    sameInstanceSameChannel [Routed.bvb 0 ⟨5, 1⟩ 1, Routed.bvb 0 ⟨5, 0⟩ 2] :=
  ⟨by decide,
    (C8_lazy_creation_stable verifyTrue emptyDispatch
      [Payload.encMsg (Payload.encBc ⟨5, 1⟩) "BVB" 1 [],
        Payload.encMsg (Payload.encBc ⟨5, 0⟩) "BVB" 2 []]
      ⟨[(5, 0)], [], [], [], [], [], [], 1⟩
      [Routed.bvb 0 ⟨5, 1⟩ 1, Routed.bvb 0 ⟨5, 0⟩ 2] (by decide)).2.2⟩

end Messenger
